import Mathlib

/-!
Verification of the vizier-stats pipeline (src/vizier_stats.py).

The pipeline classifies catalogue records by journal code, aggregates
counts per journal with a cutoff, resolves journal codes to display
names through an external service with a persistent JSON cache, and
arranges the result into a two-level hierarchy for a sunburst chart.

This file is a shallow embedding: pure Python/pandas transformations
become Lean functions on lists; the stateful resolver becomes explicit
state passing (file content in, file content out, with the sequence of
service calls and the possible abort recorded in the result).
-/

namespace VizierStats

/-! ## JournalClassifier (src/vizier_stats.py lines 45-49)

`bibcode[4:].split(".")[0]`, then `.replace("+", "&")`, then
`.split("(")[0]`.  Python slicing past the end yields the empty string,
`split(sep)[0]` is the prefix before the first separator (the whole
string when the separator is absent), and `replace` rewrites every
occurrence; `List.drop`, `List.takeWhile` and `List.map` have exactly
these semantics. -/

def replacePlusAmp (c : Char) : Char :=
  if c = '+' then '&' else c

def classify (bibcode : String) : String :=
  ⟨(((bibcode.data.drop 4).takeWhile (fun c => c ≠ '.')).map replacePlusAmp).takeWhile
    (fun c => c ≠ '(')⟩

/-! The four steps of the classifier as the spec words them (section 4.1),
used only to state the refinement claim C3 against `classify`. -/

def specDropYear (s : String) : String := ⟨s.data.drop 4⟩

def specUpToDot (s : String) : String := ⟨s.data.takeWhile (fun c => c ≠ '.')⟩

def specPlusToAmp (s : String) : String := ⟨s.data.map replacePlusAmp⟩

def specUpToParen (s : String) : String := ⟨s.data.takeWhile (fun c => c ≠ '(')⟩

/-! ## ThresholdAggregator (src/vizier_stats.py lines 30-66)

The input DataFrame `metadata` is modelled as its `bibcode` column, an
opaque bag of other columns, and the `"number of catalogues"` column
that line 52 assigns (absent before the call).  `groupby(...).count()`
over string keys yields one row per distinct key with the number of
records carrying it (key order is modelled by `List.dedup`; the claims
checked here do not depend on row order).  Line 58-60 reassigns rows
with count below the cut, or with empty key, to `"other"`; lines 63-64
regroup, summing counts per key. -/

structure Metadata where
  bibcode : List String
  otherCols : List (String × List String)
  numberCatalogs : Option (List String)
deriving DecidableEq

def groupCount (codes : List String) : List (String × Nat) :=
  codes.dedup.map (fun c => (c, codes.count c))

def reassign (cut : Nat) (p : String × Nat) : String × Nat :=
  if p.2 < cut ∨ p.1 = "" then ("other", p.2) else p

def fiberSum (l : List (String × Nat)) (c : String) : Nat :=
  ((l.filter (fun p => decide (p.1 = c))).map Prod.snd).sum

def regroup (l : List (String × Nat)) : List (String × Nat) :=
  (l.map Prod.fst).dedup.map (fun c => (c, fiberSum l c))

def get_count_for_journals (metadata : Metadata) (cut : Nat) :
    Metadata × List (String × Nat) :=
  let journal_code := metadata.bibcode.map classify
  let metadata' := { metadata with numberCatalogs := some journal_code }
  let count_journal := (groupCount journal_code).map (reassign cut)
  (metadata', regroup count_journal)

/-! ## JournalNameResolver (src/vizier_stats.py lines 69-111)

The naming service (`requests.get` on the ADS API) is modelled as a
function from a journal code to a response carrying a status code and,
for status 200, the resolved journal name.  The persistent JSON file
`journal_names.json` is modelled as an association list (first match
wins, insertion order preserved, like a Python dict).  The run returns
the file content after the run, the codes sent to the service in call
order, and the raised failure, if any.  Line 106 raises
`Warning` whose payload is the message string built from the status
alone — `"request status code: "` followed by the status — so the error
field holds exactly that string and nothing else; the raise happens
before the final save, so on failure the file keeps its initial
content.  The `isinstance(index, str)` guard is always true here since
the embedding types codes as strings. -/

structure Response where
  status_code : Nat
  journal_name : String

structure ResolverResult where
  file : List (String × String)
  calls : List String
  error : Option String
deriving DecidableEq

def resolveLoop (service : String → Response) :
    List String → List (String × String) → Bool → List String →
    List (String × String) × Bool × List String × Option String
  | [], current_list, updated, calls => (current_list, updated, calls, none)
  | index :: rest, current_list, updated, calls =>
    if index ∉ current_list.map Prod.fst ∧ index ≠ "other" then
      let result := service index
      if result.status_code = 200 then
        resolveLoop service rest (current_list ++ [(index, result.journal_name)]) true
          (calls ++ [index])
      else
        (current_list, updated, calls ++ [index],
          some ("request status code: " ++ toString result.status_code))
    else
      resolveLoop service rest current_list updated calls

def get_dict_of_journals_names (count_per_journal : List (String × Nat))
    (service : String → Response) (file : List (String × String)) : ResolverResult :=
  match resolveLoop service (count_per_journal.map Prod.fst) file false [] with
  | (current_list, updated, calls, none) =>
    { file := if updated then current_list else file, calls := calls, error := none }
  | (_, _, calls, some e) =>
    { file := file, calls := calls, error := some e }

/-! ## HierarchyMapper (src/vizier_stats.py lines 122-138)

The data-shaping part of `plot_pie_chart`, before any rendering: the
name map is loaded and its `"other"` key set to the synthesized label
(line 124, modelled by shadowing at the head of the association list);
each aggregation row is mapped to its display name (line 127, `Series.map`
yields NaN — here `none` — for a missing key); the family column applies
the `principal_journal` rewrite table (line 137, names not in the table
stay themselves); and the sub name is blanked where it equals the family
name (line 138). -/

structure HierarchyEntry where
  family : Option String
  sub : Option String
  count : Nat
deriving DecidableEq

def principal_journal : List (String × String) :=
  [("Astronomy and Astrophysics", "Astronomy & Astrophysics Journals"),
   ("Astronomy and Astrophysics Supplement Series", "Astronomy & Astrophysics Journals"),
   ("The Astronomical Journal", "American Astronomical Society Journals"),
   ("The Astrophysical Journal", "American Astronomical Society Journals"),
   ("The Astrophysical Journal Supplement Series", "American Astronomical Society Journals")]

def principalReplace (s : String) : String :=
  (List.lookup s principal_journal).getD s

def otherLabel (cut : Nat) : String :=
  "journals with less than " ++ toString cut ++ " catalogues"

def hierarchyRow (names : List (String × String)) (p : String × Nat) : HierarchyEntry :=
  { family := (List.lookup p.1 names).map principalReplace
    sub :=
      if List.lookup p.1 names = (List.lookup p.1 names).map principalReplace then none
      else List.lookup p.1 names
    count := p.2 }

def plot_pie_chart_hierarchy (count_per_journal : List (String × Nat))
    (journal_names : List (String × String)) (cut : Nat) : List HierarchyEntry :=
  count_per_journal.map (hierarchyRow (("other", otherLabel cut) :: journal_names))

end VizierStats

namespace VizierStats

/-! ## Theorems -/

/-- C3: the JournalClassifier is a pure function of the bibliographic code
that drops the first 4 characters, keeps the substring up to the first
dot, replaces every plus with an ampersand, and truncates at the first
opening parenthesis; `"2021A&A...650A.1"` and `"2021A&A...650A.2"` both
classify to `"A&A"`, and with cutoff 1 they aggregate to the single pair
`("A&A", 2)`. -/
theorem C3_classifier_steps_and_scenario :
    (∀ s : String,
      classify s = specUpToParen (specPlusToAmp (specUpToDot (specDropYear s)))) ∧
    classify "2021A&A...650A.1" = "A&A" ∧
    classify "2021A&A...650A.2" = "A&A" ∧
    (get_count_for_journals ⟨["2021A&A...650A.1", "2021A&A...650A.2"], [], none⟩ 1).2 =
      [("A&A", 2)] :=
  ⟨fun _ => rfl, by decide, by decide, by decide⟩

/-- C10: for every input bibliographic code, the journal code produced by
the classifier contains no dot, no opening parenthesis, and no plus
character. -/
theorem C10_classify_has_no_forbidden_chars (s : String) :
    '.' ∉ (classify s).data ∧ '(' ∉ (classify s).data ∧ '+' ∉ (classify s).data := by
  refine ⟨fun h => ?_, fun h => ?_, fun h => ?_⟩
  · have hmem := (List.takeWhile_sublist _).mem h
    obtain ⟨b, hb, hfb⟩ := List.mem_map.mp hmem
    have hbne : b ≠ '.' := by
      have := List.mem_takeWhile_imp hb
      simpa using this
    by_cases hplus : b = '+'
    · simp [replacePlusAmp, hplus] at hfb
    · simp [replacePlusAmp, hplus] at hfb
      exact hbne hfb
  · have := List.mem_takeWhile_imp h
    simp at this
  · have hmem := (List.takeWhile_sublist _).mem h
    obtain ⟨b, hb, hfb⟩ := List.mem_map.mp hmem
    by_cases hplus : b = '+'
    · simp [replacePlusAmp, hplus] at hfb
    · simp only [replacePlusAmp, if_neg hplus] at hfb
      exact hplus hfb

/-- Witness for C10 at a concrete bibliographic code. -/
theorem C10_classify_has_no_forbidden_chars_witness :
    '.' ∉ (classify "2021A&A...650A.1(b)").data ∧
    '(' ∉ (classify "2021A&A...650A.1(b)").data ∧
    '+' ∉ (classify "2021A&A...650A.1(b)").data :=
  C10_classify_has_no_forbidden_chars "2021A&A...650A.1(b)"

/-- C9 counterexample: the aggregation step does not leave the record
table unchanged — line 52 of src/vizier_stats.py assigns the
`"number of catalogues"` column on the input DataFrame, so the table
after the call differs from the table before it. -/
theorem C9_counterexample_metadata_mutated :
    (get_count_for_journals ⟨["2021A&A...650A.1"], [], none⟩ 250).1 ≠
      (⟨["2021A&A...650A.1"], [], none⟩ : Metadata) := by
  decide

/-- C9 amended: the aggregation step mutates the record table only by
setting the `"number of catalogues"` column to the classified journal
codes; the bibcode column and all other columns are unchanged. -/
theorem C9_amended_only_count_column_added (md : Metadata) (cut : Nat) :
    (get_count_for_journals md cut).1.bibcode = md.bibcode ∧
    (get_count_for_journals md cut).1.otherCols = md.otherCols ∧
    (get_count_for_journals md cut).1.numberCatalogs = some (md.bibcode.map classify) :=
  ⟨rfl, rfl, rfl⟩


/-! ### Sum bookkeeping for the aggregator -/

/-- Splitting a sum of mapped values along a Boolean filter. -/
theorem sum_map_filter_split {α : Type} (f : α → Nat) (q : α → Bool) (l : List α) :
    ((l.filter q).map f).sum + ((l.filter (fun a => !q a)).map f).sum = (l.map f).sum := by
  induction l with
  | nil => rfl
  | cons a t ih =>
    by_cases h : q a
    · simp [List.filter_cons, h]
      omega
    · simp [List.filter_cons, Bool.of_not_eq_true h]
      omega

/-- Summing the fibers of a partition over a duplicate-free covering key
list recovers the total. -/
theorem partition_sum :
    ∀ (keys : List String) (l : List (String × Nat)), keys.Nodup →
      (∀ p ∈ l, p.1 ∈ keys) →
      (keys.map (fiberSum l)).sum = (l.map Prod.snd).sum := by
  intro keys
  induction keys with
  | nil =>
    intro l _ hcov
    cases l with
    | nil => rfl
    | cons p t => exact absurd (hcov p (List.mem_cons_self p t)) (List.not_mem_nil p.1)
  | cons k ks ih =>
    intro l hnd hcov
    have hk : k ∉ ks := (List.nodup_cons.mp hnd).1
    have hfibers : ∀ c ∈ ks, fiberSum l c = fiberSum (l.filter (fun p => !decide (p.1 = k))) c := by
      intro c hc
      have hck : c ≠ k := fun he => hk (he ▸ hc)
      unfold fiberSum
      rw [List.filter_filter]
      have heq : l.filter (fun p => decide (p.1 = c)) =
          l.filter (fun a => decide (a.1 = c) && !decide (a.1 = k)) := by
        apply List.filter_congr
        intro p _
        by_cases hpc : p.1 = c
        · have hpk : ¬p.1 = k := fun he => hck (hpc.symm.trans he)
          simp [hpc, hpk]
          exact hck
        · simp [hpc]
      rw [heq]
    have hcov' : ∀ p ∈ l.filter (fun p => !decide (p.1 = k)), p.1 ∈ ks := by
      intro p hp
      obtain ⟨hpl, hpk⟩ := List.mem_filter.mp hp
      have hne : p.1 ≠ k := by simpa using hpk
      have := hcov p hpl
      rcases List.mem_cons.mp this with h | h
      · exact absurd h hne
      · exact h
    have hsplit := sum_map_filter_split Prod.snd (fun p => decide (p.1 = k)) l
    calc ((k :: ks).map (fiberSum l)).sum
        = fiberSum l k + (ks.map (fiberSum l)).sum := by
          simp [List.map_cons, List.sum_cons]
      _ = fiberSum l k + (ks.map (fiberSum (l.filter (fun p => !decide (p.1 = k))))).sum := by
          rw [List.map_congr_left hfibers]
      _ = fiberSum l k + ((l.filter (fun p => !decide (p.1 = k))).map Prod.snd).sum := by
          rw [ih (l.filter (fun p => !decide (p.1 = k))) (List.nodup_cons.mp hnd).2 hcov']
      _ = (l.map Prod.snd).sum := by
          unfold fiberSum
          omega

/-- Regrouping preserves the total of the counts. -/
theorem sum_regroup (l : List (String × Nat)) :
    ((regroup l).map Prod.snd).sum = (l.map Prod.snd).sum := by
  have hcov : ∀ p ∈ l, p.1 ∈ (l.map Prod.fst).dedup := fun p hp =>
    List.mem_dedup.mpr (List.mem_map_of_mem Prod.fst hp)
  have h := partition_sum (l.map Prod.fst).dedup l (List.nodup_dedup _) hcov
  rw [← h]
  unfold regroup
  rw [List.map_map]
  rfl

/-- The first groupby assigns every record to exactly one journal code,
so the per-code counts sum to the number of records. -/
theorem sum_groupCount (codes : List String) :
    ((groupCount codes).map Prod.snd).sum = codes.length := by
  have h := List.sum_map_count_dedup_eq_length codes
  rw [← h]
  unfold groupCount
  rw [List.map_map]
  rfl

/-- The `"other"` reassignment renames rows but keeps each row's count. -/
theorem map_snd_reassign (cut : Nat) (l : List (String × Nat)) :
    (l.map (reassign cut)).map Prod.snd = l.map Prod.snd := by
  rw [List.map_map]
  apply List.map_congr_left
  intro p _
  show (reassign cut p).2 = p.2
  unfold reassign
  by_cases h : p.2 < cut ∨ p.1 = "" <;> simp [h]

/-- C1: for every record table and every cutoff, the counts returned by
the ThresholdAggregator sum to the number of input records. -/
theorem C1_sum_counts_eq_num_records (md : Metadata) (cut : Nat) :
    (((get_count_for_journals md cut).2).map Prod.snd).sum = md.bibcode.length := by
  show ((regroup ((groupCount (md.bibcode.map classify)).map (reassign cut))).map
    Prod.snd).sum = md.bibcode.length
  rw [sum_regroup, map_snd_reassign, sum_groupCount, List.length_map]

/-- Each reassigned row is the `"other"` bucket, or is kept unchanged
with its count at the cut and a non-empty code. -/
theorem reassign_cases (cut : Nat) (q : String × Nat) :
    reassign cut q = ("other", q.2) ∨
      (reassign cut q = q ∧ cut ≤ q.2 ∧ q.1 ≠ "") := by
  unfold reassign
  by_cases h : q.2 < cut ∨ q.1 = ""
  · left; rw [if_pos h]
  · rcases not_or.mp h with ⟨ha, hb⟩
    right
    exact ⟨if_neg h, Nat.le_of_not_lt ha, hb⟩

/-- Every entry of a regrouped list dominates some row of the original
list carrying the same key. -/
theorem regroup_entry_bound (L : List (String × Nat)) (p : String × Nat)
    (hp : p ∈ regroup L) : ∃ q ∈ L, q.1 = p.1 ∧ q.2 ≤ p.2 := by
  unfold regroup at hp
  obtain ⟨c, hc, hpc⟩ := List.mem_map.mp hp
  obtain ⟨q, hqL, hq1⟩ := List.mem_map.mp (List.mem_dedup.mp hc)
  refine ⟨q, hqL, ?_, ?_⟩
  · rw [← hpc]; exact hq1
  · rw [← hpc]
    exact List.le_sum_of_mem (List.mem_map_of_mem Prod.snd
      (List.mem_filter.mpr ⟨hqL, by simp [hq1]⟩))

/-- C2: every entry of the ThresholdAggregator result whose code is not
the sentinel `"other"` has a count at least the cutoff and a non-empty
code. -/
theorem C2_nonother_entries_meet_cut (md : Metadata) (cut : Nat) (p : String × Nat)
    (hp : p ∈ (get_count_for_journals md cut).2) (hno : p.1 ≠ "other") :
    cut ≤ p.2 ∧ p.1 ≠ "" := by
  have hp' : p ∈ regroup ((groupCount (md.bibcode.map classify)).map (reassign cut)) := hp
  obtain ⟨q, hqL, hq1, hq2⟩ := regroup_entry_bound _ p hp'
  obtain ⟨r, _, hrq⟩ := List.mem_map.mp hqL
  rcases reassign_cases cut r with hcase | ⟨hcase, hcut, hne⟩
  · exfalso
    apply hno
    rw [← hq1, ← hrq, hcase]
  · have hqr : q = r := by rw [← hrq, hcase]
    constructor
    · rw [hqr] at hq2; omega
    · rw [← hq1, hqr]; exact hne

/-- Witness for C2 at the two-record scenario with cutoff 1. -/
theorem C2_nonother_entries_meet_cut_witness :
    1 ≤ (("A&A", 2) : String × Nat).2 ∧ (("A&A", 2) : String × Nat).1 ≠ "" :=
  C2_nonother_entries_meet_cut ⟨["2021A&A...650A.1", "2021A&A...650A.2"], [], none⟩ 1
    ("A&A", 2) (by decide) (by decide)

/-! ### Resolver loop lemmas -/

/-- If every code is already cached or is `"other"`, the loop is a no-op:
no call, no change, no error. -/
theorem resolveLoop_skip_all (service : String → Response) :
    ∀ (idxs : List String) (cur : List (String × String)) (upd : Bool) (calls : List String),
      (∀ i ∈ idxs, i ∈ cur.map Prod.fst ∨ i = "other") →
      resolveLoop service idxs cur upd calls = (cur, upd, calls, none) := by
  intro idxs
  induction idxs with
  | nil => intro cur upd calls _; rfl
  | cons i rest ih =>
    intro cur upd calls h
    have hi := h i (List.mem_cons_self i rest)
    have hcond : ¬(i ∉ cur.map Prod.fst ∧ i ≠ "other") := by
      rcases hi with hi | hi
      · exact fun hc => hc.1 hi
      · exact fun hc => hc.2 hi
    rw [resolveLoop, if_neg hcond]
    exact ih cur upd calls (fun j hj => h j (List.mem_cons_of_mem i hj))

/-- The cache only grows during the loop, and entries added on top of
the initial cache carry keys the initial cache did not have. -/
theorem resolveLoop_extends (service : String → Response) :
    ∀ (idxs : List String) (cur : List (String × String)) (upd : Bool) (calls : List String),
      (∃ t, (resolveLoop service idxs cur upd calls).1 = cur ++ t) ∧
      (∀ p ∈ (resolveLoop service idxs cur upd calls).1,
        p ∈ cur ∨ p.1 ∉ cur.map Prod.fst) := by
  intro idxs
  induction idxs with
  | nil =>
    intro cur upd calls
    exact ⟨⟨[], by simp [resolveLoop]⟩, fun p hp => Or.inl hp⟩
  | cons i rest ih =>
    intro cur upd calls
    by_cases hcond : i ∉ cur.map Prod.fst ∧ i ≠ "other"
    · rw [resolveLoop, if_pos hcond]
      by_cases hst : (service i).status_code = 200
      · rw [if_pos hst]
        obtain ⟨⟨t, ht⟩, hmem⟩ :=
          ih (cur ++ [(i, (service i).journal_name)]) true (calls ++ [i])
        refine ⟨⟨(i, (service i).journal_name) :: t, by rw [ht, List.append_assoc]; rfl⟩, ?_⟩
        intro p hp
        rcases hmem p hp with hp' | hp'
        · rcases List.mem_append.mp hp' with hp'' | hp''
          · exact Or.inl hp''
          · have : p = (i, (service i).journal_name) := by simpa using hp''
            subst this
            exact Or.inr hcond.1
        · refine Or.inr fun hk => hp' ?_
          rw [List.map_append]
          exact List.mem_append_left _ hk
      · rw [if_neg hst]
        exact ⟨⟨[], by simp⟩, fun p hp => Or.inl hp⟩
    · rw [resolveLoop, if_neg hcond]
      exact ih cur upd calls

/-- When the loop aborts, the failing code is the last call made, its
status is non-200, and the reported error is the Warning message built
from that status. -/
theorem resolveLoop_error (service : String → Response) :
    ∀ (idxs : List String) (cur : List (String × String)) (upd : Bool) (calls : List String)
      (msg : String),
      (resolveLoop service idxs cur upd calls).2.2.2 = some msg →
      ∃ c, (resolveLoop service idxs cur upd calls).2.2.1.getLast? = some c ∧
        (service c).status_code ≠ 200 ∧
        msg = "request status code: " ++ toString (service c).status_code := by
  intro idxs
  induction idxs with
  | nil => intro cur upd calls msg h; exact absurd h (by simp [resolveLoop])
  | cons i rest ih =>
    intro cur upd calls msg h
    by_cases hcond : i ∉ cur.map Prod.fst ∧ i ≠ "other"
    · rw [resolveLoop, if_pos hcond] at h ⊢
      by_cases hst : (service i).status_code = 200
      · rw [if_pos hst] at h ⊢
        exact ih _ _ _ msg h
      · rw [if_neg hst] at h ⊢
        refine ⟨i, by simp [List.getLast?_concat], hst, ?_⟩
        have h' : some ("request status code: " ++ toString (service i).status_code) =
            some msg := h
        exact (Option.some.inj h').symm
    · rw [resolveLoop, if_neg hcond] at h ⊢
      exact ih _ _ _ msg h

/-- When the loop finishes without an error, every code it scanned is
`"other"` or ends up among the cache keys. -/
theorem resolveLoop_success_mem (service : String → Response) :
    ∀ (idxs : List String) (cur : List (String × String)) (upd : Bool) (calls : List String),
      (resolveLoop service idxs cur upd calls).2.2.2 = none →
      ∀ i ∈ idxs, i = "other" ∨ i ∈ (resolveLoop service idxs cur upd calls).1.map Prod.fst := by
  intro idxs
  induction idxs with
  | nil => intro cur upd calls _ i hi; exact absurd hi (List.not_mem_nil i)
  | cons i rest ih =>
    intro cur upd calls herr j hj
    by_cases hcond : i ∉ cur.map Prod.fst ∧ i ≠ "other"
    · rw [resolveLoop, if_pos hcond] at herr ⊢
      by_cases hst : (service i).status_code = 200
      · rw [if_pos hst] at herr ⊢
        rcases List.mem_cons.mp hj with hj | hj
        · subst hj
          refine Or.inr ?_
          obtain ⟨⟨t, ht⟩, _⟩ :=
            resolveLoop_extends service rest (cur ++ [(j, (service j).journal_name)]) true
              (calls ++ [j])
          rw [ht, List.map_append]
          refine List.mem_append_left _ ?_
          rw [List.map_append]
          exact List.mem_append_right _ (by simp)
        · exact ih _ _ _ herr j hj
      · rw [if_neg hst] at herr
        exact absurd herr (by simp)
    · rw [resolveLoop, if_neg hcond] at herr ⊢
      rcases List.mem_cons.mp hj with hj | hj
      · subst hj
        rcases not_and_or.mp hcond with hc | hc
        · refine Or.inr ?_
          have hjk : j ∈ cur.map Prod.fst := not_not.mp hc
          obtain ⟨⟨t, ht⟩, _⟩ := resolveLoop_extends service rest cur upd calls
          rw [ht, List.map_append]
          exact List.mem_append_left _ hjk
        · exact Or.inl (not_not.mp hc)
      · exact ih _ _ _ herr j hj

/-- Once something has been added, the `updated` flag stays set. -/
theorem resolveLoop_updated_true (service : String → Response) :
    ∀ (idxs : List String) (cur : List (String × String)) (calls : List String),
      (resolveLoop service idxs cur true calls).2.1 = true := by
  intro idxs
  induction idxs with
  | nil => intro cur calls; rfl
  | cons i rest ih =>
    intro cur calls
    by_cases hcond : i ∉ cur.map Prod.fst ∧ i ≠ "other"
    · rw [resolveLoop, if_pos hcond]
      by_cases hst : (service i).status_code = 200
      · rw [if_pos hst]; exact ih _ _
      · rw [if_neg hst]
    · rw [resolveLoop, if_neg hcond]
      exact ih _ _

/-- If the loop reports no update, the cache it returns is the cache it
started from. -/
theorem resolveLoop_not_updated (service : String → Response) :
    ∀ (idxs : List String) (cur : List (String × String)) (calls : List String),
      (resolveLoop service idxs cur false calls).2.1 = false →
      (resolveLoop service idxs cur false calls).1 = cur := by
  intro idxs
  induction idxs with
  | nil => intro cur calls _; rfl
  | cons i rest ih =>
    intro cur calls h
    by_cases hcond : i ∉ cur.map Prod.fst ∧ i ≠ "other"
    · rw [resolveLoop, if_pos hcond] at h ⊢
      by_cases hst : (service i).status_code = 200
      · rw [if_pos hst] at h
        rw [resolveLoop_updated_true service rest _ _] at h
        exact absurd h (by simp)
      · rw [if_neg hst] at h ⊢
    · rw [resolveLoop, if_neg hcond] at h ⊢
      exact ih _ _ h

/-- A key present in the front of an association list keeps its binding
when entries are appended at the back. -/
theorem lookup_append_left {k : String} {l₁ l₂ : List (String × String)}
    (h : k ∈ l₁.map Prod.fst) :
    List.lookup k (l₁ ++ l₂) = List.lookup k l₁ := by
  induction l₁ with
  | nil => exact absurd h (List.not_mem_nil k)
  | cons a t ih =>
    rcases a with ⟨k', v⟩
    by_cases hk : k = k'
    · subst hk
      simp [List.lookup]
    · have hb : (k == k') = false := beq_false_of_ne hk
      simp only [List.cons_append, List.lookup, hb]
      apply ih
      rw [List.map_cons] at h
      rcases List.mem_cons.mp h with h' | h'
      · exact absurd h' hk
      · exact h'

/-- C4: when a naming-service lookup fails, the run aborts and the
persistent name map is exactly as it was before the run started: no
write occurs, even for codes resolved earlier in the same run. -/
theorem C4_failed_run_leaves_file_untouched (counts : List (String × Nat))
    (service : String → Response) (file : List (String × String)) (e : String)
    (h : (get_dict_of_journals_names counts service file).error = some e) :
    (get_dict_of_journals_names counts service file).file = file := by
  unfold get_dict_of_journals_names at h ⊢
  rcases hEq : resolveLoop service (counts.map Prod.fst) file false [] with
    ⟨cur, upd, calls, err⟩
  rw [hEq] at h
  cases err with
  | none => exact absurd h (by simp)
  | some e' => rfl

/-- Witness for C4: a service that answers 404 for the single pending
code aborts the run with the file left empty. -/
theorem C4_failed_run_leaves_file_untouched_witness :
    (get_dict_of_journals_names [("A&A", 2)] (fun _ => ⟨404, ""⟩) []).file = [] :=
  C4_failed_run_leaves_file_untouched [("A&A", 2)] (fun _ => ⟨404, ""⟩) []
    "request status code: 404" (by decide)

/-- C5 counterexample: the raised error does not carry the failing
journal code.  Two runs whose failing codes differ (their call lists
differ) produce identical errors, because line 106 raises a Warning
whose message is built from the status alone. -/
theorem C5_counterexample_error_lacks_code :
    (get_dict_of_journals_names [("AAA", 1)] (fun _ => ⟨404, ""⟩) []).error =
      (get_dict_of_journals_names [("BBB", 1)] (fun _ => ⟨404, ""⟩) []).error ∧
    (get_dict_of_journals_names [("AAA", 1)] (fun _ => ⟨404, ""⟩) []).error ≠ none ∧
    (get_dict_of_journals_names [("AAA", 1)] (fun _ => ⟨404, ""⟩) []).calls ≠
      (get_dict_of_journals_names [("BBB", 1)] (fun _ => ⟨404, ""⟩) []).calls := by
  decide

/-- C5 amended: a non-success status makes the resolver fail with an
error carrying the Warning message built from the status — the status,
but not the failing journal code — and the entire run aborts at that
point: the failing code is the last naming-service call made and its
status is non-200. -/
theorem C5_abort_with_status_message (counts : List (String × Nat))
    (service : String → Response) (file : List (String × String)) (msg : String)
    (h : (get_dict_of_journals_names counts service file).error = some msg) :
    ∃ c, (get_dict_of_journals_names counts service file).calls.getLast? = some c ∧
      (service c).status_code ≠ 200 ∧
      msg = "request status code: " ++ toString (service c).status_code := by
  unfold get_dict_of_journals_names at h ⊢
  rcases hEq : resolveLoop service (counts.map Prod.fst) file false [] with
    ⟨cur, upd, calls, err⟩
  rw [hEq] at h
  cases err with
  | none => exact absurd h (by simp)
  | some e' =>
    have he' : e' = msg := by simpa using h
    have hconc := resolveLoop_error service (counts.map Prod.fst) file false [] msg
      (by rw [hEq, he'])
    rw [hEq] at hconc
    simpa using hconc

/-- Witness for the amended C5 with a concrete failing service. -/
theorem C5_abort_with_status_message_witness :
    ∃ c, (get_dict_of_journals_names [("A&A", 2)] (fun _ => ⟨404, "x"⟩) []).calls.getLast? =
        some c ∧
      ((fun _ => (⟨404, "x"⟩ : Response)) c).status_code ≠ 200 ∧
      "request status code: 404" =
        "request status code: " ++
          toString (((fun _ => (⟨404, "x"⟩ : Response)) c).status_code) :=
  C5_abort_with_status_message [("A&A", 2)] (fun _ => ⟨404, "x"⟩) []
    "request status code: 404" (by decide)

/-- A run whose pending codes are all cached (or `"other"`) makes no
call and leaves the file as it was. -/
theorem run_noop_of_cached (counts : List (String × Nat)) (service : String → Response)
    (file : List (String × String))
    (hkeys : ∀ i ∈ counts.map Prod.fst, i ∈ file.map Prod.fst ∨ i = "other") :
    (get_dict_of_journals_names counts service file).file = file ∧
    (get_dict_of_journals_names counts service file).calls = [] := by
  unfold get_dict_of_journals_names
  rw [resolveLoop_skip_all service (counts.map Prod.fst) file false [] hkeys]
  exact ⟨rfl, rfl⟩

/-- After a successful run, every non-`"other"` code of the aggregation
result is among the keys of the resulting file. -/
theorem run_success_covers (counts : List (String × Nat)) (service : String → Response)
    (file : List (String × String))
    (h : (get_dict_of_journals_names counts service file).error = none) :
    ∀ i ∈ counts.map Prod.fst,
      i ∈ (get_dict_of_journals_names counts service file).file.map Prod.fst ∨
        i = "other" := by
  unfold get_dict_of_journals_names at h ⊢
  rcases hEq : resolveLoop service (counts.map Prod.fst) file false [] with
    ⟨cur, upd, calls, err⟩
  rw [hEq] at h
  cases err with
  | some e' => exact absurd h (by simp)
  | none =>
    intro i hi
    have hmem := resolveLoop_success_mem service (counts.map Prod.fst) file false []
      (by rw [hEq]) i hi
    rw [hEq] at hmem
    cases upd with
    | true =>
      rcases hmem with hio | hik
      · exact Or.inr hio
      · exact Or.inl (by simpa using hik)
    | false =>
      have hcur : cur = file := by
        have hu := resolveLoop_not_updated service (counts.map Prod.fst) file []
          (by rw [hEq])
        rw [hEq] at hu
        simpa using hu
      rcases hmem with hio | hik
      · exact Or.inr hio
      · exact Or.inl (by simpa [hcur] using hik)

/-- C6: after a successful resolver run, a second run over the same
aggregation result leaves the persistent map unchanged and performs zero
naming-service calls. -/
theorem C6_second_run_is_noop (counts : List (String × Nat)) (service : String → Response)
    (file : List (String × String))
    (h : (get_dict_of_journals_names counts service file).error = none) :
    (get_dict_of_journals_names counts service
        (get_dict_of_journals_names counts service file).file).file =
      (get_dict_of_journals_names counts service file).file ∧
    (get_dict_of_journals_names counts service
        (get_dict_of_journals_names counts service file).file).calls = [] :=
  run_noop_of_cached counts service (get_dict_of_journals_names counts service file).file
    (run_success_covers counts service file h)

/-- Witness for C6: one successful resolution, then the second run makes
no call and keeps the file. -/
theorem C6_second_run_is_noop_witness :
    (get_dict_of_journals_names [("A&A", 2)] (fun _ => ⟨200, "N"⟩)
        (get_dict_of_journals_names [("A&A", 2)] (fun _ => ⟨200, "N"⟩) []).file).file =
      (get_dict_of_journals_names [("A&A", 2)] (fun _ => ⟨200, "N"⟩) []).file ∧
    (get_dict_of_journals_names [("A&A", 2)] (fun _ => ⟨200, "N"⟩)
        (get_dict_of_journals_names [("A&A", 2)] (fun _ => ⟨200, "N"⟩) []).file).calls = [] :=
  C6_second_run_is_noop [("A&A", 2)] (fun _ => ⟨200, "N"⟩) [] (by decide)

/-- C7: within a single run the name map grows monotonically: the final
map extends the initial one, every key present at the start keeps its
value, and every entry beyond the initial ones carries a key that was
not present at the start. -/
theorem C7_name_map_grows_monotonically (counts : List (String × Nat))
    (service : String → Response) (file : List (String × String)) :
    (∃ t, (get_dict_of_journals_names counts service file).file = file ++ t) ∧
    (∀ k, k ∈ file.map Prod.fst →
      List.lookup k (get_dict_of_journals_names counts service file).file =
        List.lookup k file) ∧
    (∀ p ∈ (get_dict_of_journals_names counts service file).file,
      p ∈ file ∨ p.1 ∉ file.map Prod.fst) := by
  unfold get_dict_of_journals_names
  rcases hEq : resolveLoop service (counts.map Prod.fst) file false [] with
    ⟨cur, upd, calls, err⟩
  have hext := resolveLoop_extends service (counts.map Prod.fst) file false []
  rw [hEq] at hext
  obtain ⟨⟨t, ht⟩, hmem⟩ := hext
  cases err with
  | some e' =>
    refine ⟨⟨[], by simp⟩, fun k _ => rfl, fun p hp => Or.inl hp⟩
  | none =>
    cases upd with
    | false =>
      refine ⟨⟨[], by simp⟩, fun k _ => rfl, fun p hp => Or.inl hp⟩
    | true =>
      refine ⟨⟨t, ht⟩, ?_, hmem⟩
      intro k hk
      have ht' : cur = file ++ t := ht
      show List.lookup k cur = List.lookup k file
      rw [ht']
      exact lookup_append_left hk

/-- Witness for C7: an initial entry keeps its value across a run that
adds a new code. -/
theorem C7_name_map_grows_monotonically_witness :
    List.lookup "X" (get_dict_of_journals_names [("A&A", 1)] (fun _ => ⟨200, "N"⟩)
        [("X", "Y")]).file = List.lookup "X" [("X", "Y")] :=
  (C7_name_map_grows_monotonically [("A&A", 1)] (fun _ => ⟨200, "N"⟩) [("X", "Y")]).2.1
    "X" (by decide)

/-- A hierarchy row never keeps a sub name equal to its family name. -/
theorem hierarchyRow_no_self_sub (names : List (String × String)) (p : String × Nat)
    (s : String) (hs : (hierarchyRow names p).sub = some s) :
    (hierarchyRow names p).family ≠ some s := by
  intro hf
  unfold hierarchyRow at hs hf
  have hf' : (List.lookup p.1 names).map principalReplace = some s := hf
  by_cases h : List.lookup p.1 names = (List.lookup p.1 names).map principalReplace
  · rw [if_pos h] at hs
    exact Option.noConfusion hs
  · rw [if_neg h] at hs
    have hs' : List.lookup p.1 names = some s := hs
    rw [hs'] at h hf'
    have hps : principalReplace s = s := by simpa using hf'
    simp only [Option.map_some'] at h
    rw [hps] at h
    exact h rfl

/-- C8: the HierarchyMapper never emits an entry whose sub-journal name
equals its family name, and the counts attached to the hierarchy entries
sum to the same total as the aggregation result. -/
theorem C8_hierarchy_no_self_sub_and_total (counts : List (String × Nat))
    (journal_names : List (String × String)) (cut : Nat) :
    (∀ e ∈ plot_pie_chart_hierarchy counts journal_names cut,
      ∀ s, e.sub = some s → e.family ≠ some s) ∧
    ((plot_pie_chart_hierarchy counts journal_names cut).map HierarchyEntry.count).sum =
      (counts.map Prod.snd).sum := by
  constructor
  · intro e he s hs
    obtain ⟨p, _, hpe⟩ := List.mem_map.mp he
    subst hpe
    exact hierarchyRow_no_self_sub _ p s hs
  · unfold plot_pie_chart_hierarchy
    rw [List.map_map]
    rfl

/-- Witness for C8: the A&A row is rewritten to the umbrella family, so
its family differs from its retained sub name. -/
theorem C8_hierarchy_no_self_sub_and_total_witness :
    (hierarchyRow (("other", otherLabel 250) :: [("A&A", "Astronomy and Astrophysics")])
        ("A&A", 2)).family ≠ some "Astronomy and Astrophysics" :=
  (C8_hierarchy_no_self_sub_and_total [("A&A", 2)] [("A&A", "Astronomy and Astrophysics")]
      250).1
    (hierarchyRow (("other", otherLabel 250) :: [("A&A", "Astronomy and Astrophysics")])
      ("A&A", 2))
    (by simp [plot_pie_chart_hierarchy]) "Astronomy and Astrophysics" (by decide)

end VizierStats
